import Mathlib

/-
  Shallow embedding of src/server/template/config-generator/src/main.rs.

  Rust strings are modelled as `List Char`; `process::exit(1)` inside the
  parser is modelled by `Except ParseError`; file-system effects in `main`
  are modelled by the explicit `runMain` step function whose read/write
  outcomes are Boolean parameters.
-/

set_option maxHeartbeats 1000000

/-- Characters of a string literal; the model of Rust string data. -/
def str (s : String) : List Char := s.data

/-- Model of Rust str::trim. Whitespace here covers space, tab, CR, LF
(Rust additionally trims rarer Unicode whitespace, which no claim uses). -/
def trim (l : List Char) : List Char :=
  ((l.dropWhile Char.isWhitespace).reverse.dropWhile Char.isWhitespace).reverse

/-- Model of Rust str::split_once: split at the first occurrence of sep,
returning none when sep does not occur. -/
def splitOnce (sep : Char) : List Char → Option (List Char × List Char)
  | [] => none
  | c :: rest =>
    if c = sep then some ([], rest)
    else
      match splitOnce sep rest with
      | none => none
      | some (a, b) => some (c :: a, b)

/-- Model of Rust "value".parse::<u16>(): an optional leading '+', then at
least one ASCII digit, and the decimal value must be below 2^16. -/
def parseU16 (s : List Char) : Option Nat :=
  let digits := match s with
    | '+' :: rest => rest
    | _ => s
  if digits.isEmpty then none
  else if digits.all Char.isDigit then
    let n := digits.foldl (fun acc c => acc * 10 + (c.toNat - 48)) 0
    if n < 65536 then some n else none
  else none

/-- Split a character list at newline characters; always at least one segment. -/
def splitNl : List Char → List (List Char)
  | [] => [[]]
  | c :: rest =>
    if c = '\n' then [] :: splitNl rest
    else
      match splitNl rest with
      | [] => [[c]]
      | l :: ls => (c :: l) :: ls

/-- Drop a trailing carriage return, the CRLF half handled by Rust str::lines. -/
def stripCr (l : List Char) : List Char :=
  if l.getLast? = some '\r' then l.dropLast else l

/-- Model of Rust str::lines: split at LF or CRLF; a final line terminator
produces no trailing empty line; a lone final CR is kept. -/
def rustLines (s : List Char) : List (List Char) :=
  let segs := splitNl s
  let body := (segs.take (segs.length - 1)).map stripCr
  match segs.getLast? with
  | some last => if last = [] then body else body ++ [last]
  | none => body

/-- Parse failure, modelling the process::exit(1) calls inside
parse_authn_file of main.rs. -/
inductive ParseError where
  | invalidPort : ParseError
  | missingField : List Char → ParseError
deriving DecidableEq

/-- Error text printed on the error stream for each parse failure. -/
def errMsg : ParseError → List Char
  | .invalidPort => str "Error: EMAIL_SMTP_PORT must be a valid number"
  | .missingField f => str "Error: " ++ f ++ str " not found in authn file"

/-- Scanning state of parse_authn_file: the eight mutable Option locals. -/
structure PartialAuthn where
  client_id : Option (List Char)
  client_secret : Option (List Char)
  email_smtp_host : Option (List Char)
  email_smtp_port : Option Nat
  email_smtp_username : Option (List Char)
  email_smtp_password : Option (List Char)
  email_sender_name : Option (List Char)
  email_sender_address : Option (List Char)
deriving DecidableEq

/-- Initial scanning state: every field unset. -/
def initPartial : PartialAuthn :=
  ⟨none, none, none, none, none, none, none, none⟩

/-- The eight recognized settings fields, one per match arm of the parse
loop of parse_authn_file. -/
inductive FieldKey where
  | clientId : FieldKey
  | clientSecret : FieldKey
  | smtpHost : FieldKey
  | smtpPort : FieldKey
  | smtpUsername : FieldKey
  | smtpPassword : FieldKey
  | senderName : FieldKey
  | senderAddress : FieldKey
deriving DecidableEq

/-- The exact, case-sensitive key text recognized for each field. -/
def keyName : FieldKey → List Char
  | .clientId => str "GOOGLE_OAUTH_CLIENT_ID"
  | .clientSecret => str "GOOGLE_OAUTH_CLIENT_SECRET"
  | .smtpHost => str "EMAIL_SMTP_HOST"
  | .smtpPort => str "EMAIL_SMTP_PORT"
  | .smtpUsername => str "EMAIL_SMTP_USERNAME"
  | .smtpPassword => str "EMAIL_SMTP_PASSWORD"
  | .senderName => str "EMAIL_SENDER_NAME"
  | .senderAddress => str "EMAIL_SENDER_ADDRESS"

/-- Key dispatch of the match in the parse loop: exact string comparison in
source arm order; unrecognized keys fall through to the ignoring arm. -/
def keyOf (key : List Char) : Option FieldKey :=
  if key = str "GOOGLE_OAUTH_CLIENT_ID" then some .clientId
  else if key = str "GOOGLE_OAUTH_CLIENT_SECRET" then some .clientSecret
  else if key = str "EMAIL_SMTP_HOST" then some .smtpHost
  else if key = str "EMAIL_SMTP_PORT" then some .smtpPort
  else if key = str "EMAIL_SMTP_USERNAME" then some .smtpUsername
  else if key = str "EMAIL_SMTP_PASSWORD" then some .smtpPassword
  else if key = str "EMAIL_SENDER_NAME" then some .senderName
  else if key = str "EMAIL_SENDER_ADDRESS" then some .senderAddress
  else none

/-- Body of a recognized match arm: store the value, parsing the port as u16
first and exiting on parse failure (the only fallible arm). -/
def setField (st : PartialAuthn) (k : FieldKey) (value : List Char) :
    Except ParseError PartialAuthn :=
  match k with
  | .clientId => .ok { st with client_id := some value }
  | .clientSecret => .ok { st with client_secret := some value }
  | .smtpHost => .ok { st with email_smtp_host := some value }
  | .smtpPort =>
    match parseU16 value with
    | some n => .ok { st with email_smtp_port := some n }
    | none => .error .invalidPort
  | .smtpUsername => .ok { st with email_smtp_username := some value }
  | .smtpPassword => .ok { st with email_smtp_password := some value }
  | .senderName => .ok { st with email_sender_name := some value }
  | .senderAddress => .ok { st with email_sender_address := some value }

/-- The match on trimmed key inside the parse loop of parse_authn_file:
dispatch on the key text and run the chosen arm. -/
def applyKey (st : PartialAuthn) (key value : List Char) :
    Except ParseError PartialAuthn :=
  match keyOf key with
  | none => .ok st
  | some k => setField st k value

/-- The line-shaping steps of the parse loop: trim the line, drop blank and
comment lines, split at the first '=', and trim key and value; returns the
trimmed key/value pair for lines that reach the key match. -/
def lineAssign (raw : List Char) : Option (List Char × List Char) :=
  let line := trim raw
  if line.isEmpty || line.head? = some '#' then none
  else
    match splitOnce '=' line with
    | none => none
    | some (k, v) => some (trim k, trim v)

/-- One iteration of the line loop of parse_authn_file: shape the line, then
dispatch on the trimmed key. -/
def processLine (st : PartialAuthn) (raw : List Char) :
    Except ParseError PartialAuthn :=
  match lineAssign raw with
  | none => .ok st
  | some (k, v) => applyKey st k v

/-- The whole line loop of parse_authn_file over a list of lines. -/
def scanList (st : PartialAuthn) : List (List Char) → Except ParseError PartialAuthn
  | [] => .ok st
  | l :: ls =>
    match processLine st l with
    | .ok st' => scanList st' ls
    | .error e => .error e

/-- The validated settings record (struct AuthnData of main.rs). -/
structure AuthnData where
  client_id : List Char
  client_secret : List Char
  email_smtp_host : List Char
  email_smtp_port : Nat
  email_smtp_username : List Char
  email_smtp_password : List Char
  email_sender_name : List Char
  email_sender_address : List Char
deriving DecidableEq

/-- The AuthnData struct literal at the end of parse_authn_file: each
unwrap_or_else exit, evaluated in field declaration order. -/
def finalize (st : PartialAuthn) : Except ParseError AuthnData :=
  match st.client_id with
  | none => .error (.missingField (str "GOOGLE_OAUTH_CLIENT_ID"))
  | some cid =>
    match st.client_secret with
    | none => .error (.missingField (str "GOOGLE_OAUTH_CLIENT_SECRET"))
    | some cs =>
      match st.email_smtp_host with
      | none => .error (.missingField (str "EMAIL_SMTP_HOST"))
      | some host =>
        match st.email_smtp_port with
        | none => .error (.missingField (str "EMAIL_SMTP_PORT"))
        | some port =>
          match st.email_smtp_username with
          | none => .error (.missingField (str "EMAIL_SMTP_USERNAME"))
          | some user =>
            match st.email_smtp_password with
            | none => .error (.missingField (str "EMAIL_SMTP_PASSWORD"))
            | some pw =>
              match st.email_sender_name with
              | none => .error (.missingField (str "EMAIL_SENDER_NAME"))
              | some sname =>
                match st.email_sender_address with
                | none => .error (.missingField (str "EMAIL_SENDER_ADDRESS"))
                | some saddr =>
                  .ok ⟨cid, cs, host, port, user, pw, sname, saddr⟩

/-- The first field, in struct declaration order, still unset after the scan. -/
def firstMissing (st : PartialAuthn) : Option (List Char) :=
  if st.client_id = none then some (str "GOOGLE_OAUTH_CLIENT_ID")
  else if st.client_secret = none then some (str "GOOGLE_OAUTH_CLIENT_SECRET")
  else if st.email_smtp_host = none then some (str "EMAIL_SMTP_HOST")
  else if st.email_smtp_port = none then some (str "EMAIL_SMTP_PORT")
  else if st.email_smtp_username = none then some (str "EMAIL_SMTP_USERNAME")
  else if st.email_smtp_password = none then some (str "EMAIL_SMTP_PASSWORD")
  else if st.email_sender_name = none then some (str "EMAIL_SENDER_NAME")
  else if st.email_sender_address = none then some (str "EMAIL_SENDER_ADDRESS")
  else none

/-- Model of fn parse_authn_file: scan the lines, then build the record. -/
def parse_authn_file (content : List Char) : Except ParseError AuthnData :=
  match scanList initPartial (rustLines content) with
  | .error e => .error e
  | .ok st => finalize st

/-- Fuel-indexed scan for replaceAll; the fuel is structural and at least
the length of the remaining text, so the base fuel case is unreachable. -/
def replaceAllAux (pat rep : List Char) : Nat → List Char → List Char
  | _, [] => if pat.isEmpty then rep else []
  | 0, s => s
  | fuel + 1, c :: rest =>
    if pat.isEmpty then rep ++ c :: replaceAllAux pat rep fuel rest
    else if pat.isPrefixOf (c :: rest) then
      rep ++ replaceAllAux pat rep fuel (rest.drop (pat.length - 1))
    else c :: replaceAllAux pat rep fuel rest

/-- Model of Rust str::replace: replace every leftmost non-overlapping
occurrence of pat by rep; replacements are not rescanned. -/
def replaceAll (pat rep s : List Char) : List Char :=
  replaceAllAux pat rep s.length s

/-- Decimal rendering of the port, as Rust's Display for u16. -/
def natDigits (n : Nat) : List Char := (Nat.repr n).data

/-- The email section built by the format! call in main (line 79): all public
email fields inserted literally, smtp_password left as the redaction marker. -/
def emailSection (a : AuthnData) : List Char :=
  str "email \x7b\n  smtp_host: \"" ++ a.email_smtp_host ++
  str "\"\n  smtp_port: " ++ natDigits a.email_smtp_port ++
  str "\n  smtp_username: \"" ++ a.email_smtp_username ++
  str "\"\n  smtp_password: \"<REDACTED>\"\n  sender_name: \"" ++ a.email_sender_name ++
  str "\"\n  sender_address: \"" ++ a.email_sender_address ++
  str "\"\n\x7d"

/-- Public configuration text produced by main (lines 75-87): substitute the
client_id placeholder pattern, then expand the empty email block. -/
def generate_config (template : List Char) (a : AuthnData) : List Char :=
  replaceAll (str "email \x7b\x7d") (emailSection a)
    (replaceAll (str "client_id: \"<REDACTED>\"")
      (str "client_id: \"" ++ a.client_id ++ str "\"") template)

/-- Model of HashMap::insert as an association list: overwrite the entry when
the key is present, otherwise add it. -/
def insertKV (m : List (List Char × List Char)) (k v : List Char) :
    List (List Char × List Char) :=
  if m.any (fun p => p.1 == k) then
    m.map (fun p => if p.1 == k then (k, v) else p)
  else m ++ [(k, v)]

/-- Lookup in the association-list model of the vault mapping. -/
def lookupKV (m : List (List Char × List Char)) (k : List Char) :
    Option (List Char) :=
  (m.find? (fun p => p.1 == k)).map (fun p => p.2)

/-- The secrets mapping built by generate_vault_file: two HashMap inserts
under the fixed secret identifiers. -/
def vaultSecrets (client_secret email_password : List Char) :
    List (List Char × List Char) :=
  insertKV
    (insertKV [] (str "TRAIL_AUTH_OAUTH_PROVIDERS_GOOGLE_CLIENT_SECRET") client_secret)
    (str "TRAIL_EMAIL_SMTP_PASSWORD") email_password

/-- Modelled from the spec: the external structured-text serializer
(prost_reflect text format, out of scope per spec section 1) rendering the
vault mapping pretty-printed, one key/value entry per map element. -/
def renderVault (m : List (List Char × List Char)) : List Char :=
  m.foldl
    (fun acc p =>
      acc ++ str "secrets \x7b\n  key: \"" ++ p.1 ++
      str "\"\n  value: \"" ++ p.2 ++ str "\"\n\x7d\n")
    []

/-- Model of fn generate_vault_file: build the two-entry secrets mapping,
serialize it, and prepend the generated-file preface; the body has no
fallible step, so it always returns Ok. -/
def generate_vault_file (client_secret email_password : List Char) :
    Except (List Char) (List Char) :=
  .ok (str "# Auto-generated config.Vault textproto\n" ++
    renderVault (vaultSecrets client_secret email_password))

/-- Reason a run of main terminated, one per exit path of main. -/
inductive ExitReason where
  | success : ExitReason
  | templateReadError : ExitReason
  | authnReadError : ExitReason
  | parseFailure : ParseError → ExitReason
  | vaultGenError : ExitReason
  | dirError : ExitReason
  | configWriteError : ExitReason
  | vaultWriteError : ExitReason
deriving DecidableEq

/-- Whether the exit path was the vault-generation error branch of main. -/
def ExitReason.isVaultGenError : ExitReason → Bool
  | .vaultGenError => true
  | _ => false

/-- Outcome of a run of main: contents committed to disk (none when the file
was never written) and the exit path taken. -/
structure RunResult where
  configWritten : Option (List Char)
  vaultWritten : Option (List Char)
  reason : ExitReason
deriving DecidableEq

/-- Process exit status of a run. -/
def exitCode (r : RunResult) : Nat :=
  match r.reason with
  | .success => 0
  | _ => 1

/-- Model of fn main after argument handling: template read, authn read,
parse, config generation, vault generation, vault directory creation, config
write, vault write — in source order, aborting at the first failure. The
Option inputs model read failures; the Bool inputs model directory-creation
and write failures. -/
def runMain (templateRead authnRead : Option (List Char))
    (dirOk cfgWriteOk vaultWriteOk : Bool) : RunResult :=
  match templateRead with
  | none => ⟨none, none, .templateReadError⟩
  | some template =>
    match authnRead with
    | none => ⟨none, none, .authnReadError⟩
    | some content =>
      match parse_authn_file content with
      | .error e => ⟨none, none, .parseFailure e⟩
      | .ok a =>
        let config := generate_config template a
        match generate_vault_file a.client_secret a.email_smtp_password with
        | .error _ => ⟨none, none, .vaultGenError⟩
        | .ok vaultContent =>
          if !dirOk then ⟨none, none, .dirError⟩
          else if !cfgWriteOk then ⟨none, none, .configWriteError⟩
          else if !vaultWriteOk then ⟨some config, none, .vaultWriteError⟩
          else ⟨some config, some vaultContent, .success⟩

/-- Decidable substring occurrence test over the character-list model. -/
def occursIn (pat : List Char) : List Char → Bool
  | [] => pat.isEmpty
  | c :: rest => pat.isPrefixOf (c :: rest) || occursIn pat rest

/-! Helper lemmas about the string model. -/

theorem isPrefixOf_append_of_isPrefixOf {p s t : List Char}
    (h : p.isPrefixOf s = true) : p.isPrefixOf (s ++ t) = true := by
  induction p generalizing s with
  | nil => simp [List.isPrefixOf]
  | cons a as ih =>
    cases s with
    | nil => simp [List.isPrefixOf] at h
    | cons b bs =>
      simp only [List.isPrefixOf, List.cons_append, Bool.and_eq_true] at h ⊢
      exact ⟨h.1, ih h.2⟩

theorem occursIn_append_left {p s : List Char} (t : List Char)
    (h : occursIn p s = true) : occursIn p (s ++ t) = true := by
  induction s with
  | nil =>
    simp [occursIn] at h
    subst h
    cases t <;> simp [occursIn, List.isPrefixOf]
  | cons c rest ih =>
    simp only [occursIn, Bool.or_eq_true] at h
    rcases h with h | h
    · simp only [List.cons_append, occursIn, Bool.or_eq_true]
      exact Or.inl (isPrefixOf_append_of_isPrefixOf h)
    · simp only [List.cons_append, occursIn, Bool.or_eq_true]
      exact Or.inr (ih h)

theorem occursIn_append_right {p t : List Char} (s : List Char)
    (h : occursIn p t = true) : occursIn p (s ++ t) = true := by
  induction s with
  | nil => simpa using h
  | cons c rest ih =>
    simp only [List.cons_append, occursIn, Bool.or_eq_true]
    exact Or.inr ih

/-! Shared concrete sample data used by witnesses and counterexamples. -/

/-- A fully valid sample authn file content in which the OAuth client secret
has the same literal value as the public client id. -/
def sampleContent : List Char :=
  str "GOOGLE_OAUTH_CLIENT_ID=xyz\nGOOGLE_OAUTH_CLIENT_SECRET=xyz\nEMAIL_SMTP_HOST=smtp.example.com\nEMAIL_SMTP_PORT=587\nEMAIL_SMTP_USERNAME=user\nEMAIL_SMTP_PASSWORD=pw\nEMAIL_SENDER_NAME=Sender\nEMAIL_SENDER_ADDRESS=a@b.c"

/-- The settings record that sampleContent parses to. -/
def sampleRecord : AuthnData :=
  ⟨str "xyz", str "xyz", str "smtp.example.com", 587, str "user", str "pw",
   str "Sender", str "a@b.c"⟩

/-- The two-insert vault mapping is exactly the two-entry association list. -/
theorem vaultSecrets_eq (cs ep : List Char) :
    vaultSecrets cs ep =
      [(str "TRAIL_AUTH_OAUTH_PROVIDERS_GOOGLE_CLIENT_SECRET", cs),
       (str "TRAIL_EMAIL_SMTP_PASSWORD", ep)] := by
  have h : (str "TRAIL_AUTH_OAUTH_PROVIDERS_GOOGLE_CLIENT_SECRET" ==
      str "TRAIL_EMAIL_SMTP_PASSWORD") = false := by decide
  simp [vaultSecrets, insertKV, h]

/-- Claim C2: for every settings record the vault mapping holds exactly the
two secret entries — the OAuth-secret identifier mapped to the client
secret's literal value and the email-password identifier mapped to the email
SMTP password's literal value — with no missing keys, no extra keys, and no
entry derived from any public field. -/
theorem c2_vault_exact (cs ep k : List Char) :
    lookupKV (vaultSecrets cs ep)
      (str "TRAIL_AUTH_OAUTH_PROVIDERS_GOOGLE_CLIENT_SECRET") = some cs ∧
    lookupKV (vaultSecrets cs ep)
      (str "TRAIL_EMAIL_SMTP_PASSWORD") = some ep ∧
    (vaultSecrets cs ep).length = 2 ∧
    (k ≠ str "TRAIL_AUTH_OAUTH_PROVIDERS_GOOGLE_CLIENT_SECRET" →
      k ≠ str "TRAIL_EMAIL_SMTP_PASSWORD" →
      lookupKV (vaultSecrets cs ep) k = none) := by
  rw [vaultSecrets_eq]
  refine ⟨?_, ?_, rfl, ?_⟩
  · simp [lookupKV, List.find?]
  · have h : (str "TRAIL_AUTH_OAUTH_PROVIDERS_GOOGLE_CLIENT_SECRET" ==
        str "TRAIL_EMAIL_SMTP_PASSWORD") = false := by decide
    simp [lookupKV, List.find?, h]
  · intro h1 h2
    have b1 : (str "TRAIL_AUTH_OAUTH_PROVIDERS_GOOGLE_CLIENT_SECRET" == k) = false := by
      simp only [beq_eq_false_iff_ne, ne_eq]
      exact fun hc => h1 hc.symm
    have b2 : (str "TRAIL_EMAIL_SMTP_PASSWORD" == k) = false := by
      simp only [beq_eq_false_iff_ne, ne_eq]
      exact fun hc => h2 hc.symm
    simp [lookupKV, List.find?, b1, b2]

/-- Witness for C2 at concrete secrets and a concrete foreign key. -/
theorem c2_vault_exact_witness :
    lookupKV (vaultSecrets (str "s3cr3t") (str "hunter2"))
      (str "TRAIL_AUTH_OAUTH_PROVIDERS_GOOGLE_CLIENT_SECRET") = some (str "s3cr3t") ∧
    lookupKV (vaultSecrets (str "s3cr3t") (str "hunter2"))
      (str "TRAIL_EMAIL_SMTP_PASSWORD") = some (str "hunter2") ∧
    (vaultSecrets (str "s3cr3t") (str "hunter2")).length = 2 ∧
    lookupKV (vaultSecrets (str "s3cr3t") (str "hunter2")) (str "OTHER_KEY") = none := by
  obtain ⟨h1, h2, h3, h4⟩ :=
    c2_vault_exact (str "s3cr3t") (str "hunter2") (str "OTHER_KEY")
  exact ⟨h1, h2, h3, h4 (by decide) (by decide)⟩

/-- Claim C8: the public configuration document does not depend on the
secret fields — two records agreeing on every public field produce identical
public configuration text for the same template. -/
theorem c8_public_only (t : List Char) (a a' : AuthnData)
    (h1 : a.client_id = a'.client_id)
    (h2 : a.email_smtp_host = a'.email_smtp_host)
    (h3 : a.email_smtp_port = a'.email_smtp_port)
    (h4 : a.email_smtp_username = a'.email_smtp_username)
    (h5 : a.email_sender_name = a'.email_sender_name)
    (h6 : a.email_sender_address = a'.email_sender_address) :
    generate_config t a = generate_config t a' := by
  simp [generate_config, emailSection, h1, h2, h3, h4, h5, h6]

/-- Witness for C8: two records differing only in both secrets. -/
theorem c8_public_only_witness :
    generate_config (str "client_id: \"<REDACTED>\"\nemail \x7b\x7d")
      ⟨str "id", str "secretA", str "h", 25, str "u", str "pwA", str "n", str "ad"⟩ =
    generate_config (str "client_id: \"<REDACTED>\"\nemail \x7b\x7d")
      ⟨str "id", str "secretB", str "h", 25, str "u", str "pwB", str "n", str "ad"⟩ :=
  c8_public_only _ _ _ rfl rfl rfl rfl rfl rfl

/-- Claim C10: vault generation is total — generate_vault_file returns Ok on
every input pair, and no run of main takes the vault-generation error path. -/
theorem c10_vault_total (cs ep : List Char) (t? a? : Option (List Char))
    (d w1 w2 : Bool) :
    (generate_vault_file cs ep).isOk = true ∧
    (runMain t? a? d w1 w2).reason.isVaultGenError = false := by
  refine ⟨rfl, ?_⟩
  rcases t? with _ | t
  · simp [runMain, ExitReason.isVaultGenError]
  rcases a? with _ | content
  · simp [runMain, ExitReason.isVaultGenError]
  rcases hp : parse_authn_file content with e | a
  · simp [runMain, hp, ExitReason.isVaultGenError]
  · cases d <;> cases w1 <;> cases w2 <;>
      simp [runMain, hp, generate_vault_file, ExitReason.isVaultGenError]

/-- Decidable equality of Except values with decidable components. -/
instance {ε α : Type} [DecidableEq ε] [DecidableEq α] :
    DecidableEq (Except ε α) := fun x y =>
  match x, y with
  | .ok a, .ok b =>
    if h : a = b then .isTrue (congrArg Except.ok h)
    else .isFalse (fun hc => h (Except.ok.inj hc))
  | .error e, .error f =>
    if h : e = f then .isTrue (congrArg Except.error h)
    else .isFalse (fun hc => h (Except.error.inj hc))
  | .ok _, .error _ => .isFalse (fun hc => Except.noConfusion hc)
  | .error _, .ok _ => .isFalse (fun hc => Except.noConfusion hc)

/-- Every character list is a Boolean prefix of itself. -/
theorem isPrefixOf_self (l : List Char) : l.isPrefixOf l = true := by
  induction l with
  | nil => rfl
  | cons c rest ih => simp [List.isPrefixOf, ih]

/-- A pattern that occurs nowhere in the text is replaced nowhere. -/
theorem replaceAllAux_not_occurs (pat rep : List Char) :
    ∀ (fuel : Nat) (s : List Char), occursIn pat s = false →
      replaceAllAux pat rep fuel s = s := by
  intro fuel
  induction fuel with
  | zero =>
    intro s h
    cases s with
    | nil =>
      simp only [occursIn] at h
      simp [replaceAllAux, h]
    | cons c rest => rfl
  | succ fuel ih =>
    intro s h
    cases s with
    | nil =>
      simp only [occursIn] at h
      simp [replaceAllAux, h]
    | cons c rest =>
      simp only [occursIn, Bool.or_eq_false_iff] at h
      have hne : pat.isEmpty = false := by
        cases pat with
        | nil => simp [List.isPrefixOf] at h
        | cons p ps => rfl
      simp [replaceAllAux, hne, h.1, ih rest h.2]

/-- Lift of replaceAllAux_not_occurs to replaceAll. -/
theorem replaceAll_not_occurs (pat rep s : List Char)
    (h : occursIn pat s = false) : replaceAll pat rep s = s :=
  replaceAllAux_not_occurs pat rep s.length s h

/-- Replacing a nonempty pattern inside exactly that pattern yields the
replacement text. -/
theorem replaceAll_self (pat rep : List Char) (h : pat ≠ []) :
    replaceAll pat rep pat = rep := by
  cases pat with
  | nil => exact absurd rfl h
  | cons c rest =>
    have hpre : (c :: rest).isPrefixOf (c :: rest) = true := by
      exact isPrefixOf_self _
    simp [replaceAll, replaceAllAux, hpre, List.drop_length]

/-- Claim C1 counterexample: a valid settings record whose OAuth client
secret has the same literal value as the public client id; the secret's
literal value then appears in the generated public configuration document,
refuting the universally quantified non-occurrence reading of the claim. -/
theorem c1_counterexample :
    parse_authn_file sampleContent = .ok sampleRecord ∧
    occursIn sampleRecord.client_secret
      (generate_config (str "client_id: \"<REDACTED>\"") sampleRecord) = true := by
  exact ⟨by decide, by decide⟩

/-- Claim C1 as amended: the generator never reads the secret fields — the
public document is unchanged under arbitrary replacement of the OAuth client
secret and the email SMTP password — and the expanded email section renders
its secret field as the fixed redaction marker, so a secret value can appear
in the public document only by coinciding with template text or with a
public field's value. -/
theorem c1_amended (t : List Char) (a : AuthnData) (cs ep : List Char) :
    generate_config t
      { a with client_secret := cs, email_smtp_password := ep } =
      generate_config t a ∧
    occursIn (str "smtp_password: \"<REDACTED>\"") (emailSection a) = true := by
  constructor
  · rfl
  · unfold emailSection
    apply occursIn_append_left
    apply occursIn_append_left
    apply occursIn_append_left
    apply occursIn_append_left
    apply occursIn_append_right
    decide

/-- Claim C3 counterexample: a run in which every stage up to and including
the config write succeeds but the vault write fails ends with the public
configuration committed to disk, the vault absent, and a non-zero exit —
refuting the both-or-neither atomicity claim. -/
theorem c3_counterexample :
    (runMain (some (str "email \x7b\x7d")) (some sampleContent)
        true true false).configWritten.isSome = true ∧
    (runMain (some (str "email \x7b\x7d")) (some sampleContent)
        true true false).vaultWritten = none ∧
    exitCode (runMain (some (str "email \x7b\x7d")) (some sampleContent)
        true true false) = 1 := by
  exact ⟨by decide, by decide, by decide⟩

/-- Claim C3 as amended: both artifacts are fully produced before either
write; the vault is only ever written after the config write succeeded; a
run exits zero exactly when both artifacts were written; and any failure
other than the final vault-write failure leaves neither artifact written.
If the vault write itself fails after the config write succeeded, the run
ends with the config written and the vault absent. -/
theorem c3_amended (t? a? : Option (List Char)) (d w1 w2 : Bool) :
    ((runMain t? a? d w1 w2).vaultWritten.isSome = true →
      (runMain t? a? d w1 w2).configWritten.isSome = true) ∧
    ((runMain t? a? d w1 w2).reason = .success ↔
      ((runMain t? a? d w1 w2).configWritten.isSome = true ∧
       (runMain t? a? d w1 w2).vaultWritten.isSome = true)) ∧
    ((runMain t? a? d w1 w2).reason ≠ .success →
      (runMain t? a? d w1 w2).reason ≠ .vaultWriteError →
      (runMain t? a? d w1 w2).configWritten = none ∧
      (runMain t? a? d w1 w2).vaultWritten = none) := by
  rcases t? with _ | t
  · simp [runMain]
  rcases a? with _ | content
  · simp [runMain]
  rcases hp : parse_authn_file content with e | a
  · simp [runMain, hp]
  · cases d <;> cases w1 <;> cases w2 <;>
      simp [runMain, hp, generate_vault_file]

/-- Witness for C3 as amended, at an all-success run and at a
directory-creation failure of the same inputs. -/
theorem c3_amended_witness :
    (runMain (some (str "email \x7b\x7d")) (some sampleContent)
        true true true).configWritten.isSome = true ∧
    (runMain (some (str "email \x7b\x7d")) (some sampleContent)
        false true true).configWritten = none ∧
    (runMain (some (str "email \x7b\x7d")) (some sampleContent)
        false true true).vaultWritten = none := by
  obtain ⟨h1, -, -⟩ :=
    c3_amended (some (str "email \x7b\x7d")) (some sampleContent) true true true
  obtain ⟨-, -, h3⟩ :=
    c3_amended (some (str "email \x7b\x7d")) (some sampleContent) false true true
  obtain ⟨ha, hb⟩ := h3 (by decide) (by decide)
  exact ⟨h1 (by decide), ha, hb⟩

/-- Claim C9: all eight recognized fields are unconditionally required — a
settings input providing the OAuth pair but no SMTP host fails fatally
naming EMAIL_SMTP_HOST, the first missing email field; and the empty email
block of a template is always expanded into the populated email section,
whatever the record holds. -/
theorem c9_email_required (content : List Char) (st : PartialAuthn)
    (a : AuthnData)
    (h : scanList initPartial (rustLines content) = .ok st)
    (h1 : st.client_id.isSome = true) (h2 : st.client_secret.isSome = true)
    (h3 : st.email_smtp_host = none) :
    parse_authn_file content = .error (.missingField (str "EMAIL_SMTP_HOST")) ∧
    generate_config (str "email \x7b\x7d") a = emailSection a := by
  constructor
  · rcases hid : st.client_id with _ | cid
    · rw [hid] at h1; simp at h1
    rcases hsec : st.client_secret with _ | csec
    · rw [hsec] at h2; simp at h2
    simp [parse_authn_file, h, finalize, hid, hsec, h3]
  · have hinner :
        replaceAll (str "client_id: \"<REDACTED>\"")
          (str "client_id: \"" ++ a.client_id ++ str "\"")
          (str "email \x7b\x7d") = str "email \x7b\x7d" :=
      replaceAll_not_occurs _ _ _ (by decide)
    unfold generate_config
    rw [hinner, replaceAll_self _ _ (by decide)]

/-- Witness for C9 at a settings input holding only the OAuth pair. -/
theorem c9_email_required_witness :
    parse_authn_file
        (str "GOOGLE_OAUTH_CLIENT_ID=abc\nGOOGLE_OAUTH_CLIENT_SECRET=xyz") =
      .error (.missingField (str "EMAIL_SMTP_HOST")) ∧
    generate_config (str "email \x7b\x7d") sampleRecord =
      emailSection sampleRecord := by
  obtain ⟨h1, h2⟩ := c9_email_required
    (str "GOOGLE_OAUTH_CLIENT_ID=abc\nGOOGLE_OAUTH_CLIENT_SECRET=xyz")
    ⟨some (str "abc"), some (str "xyz"), none, none, none, none, none, none⟩
    sampleRecord (by decide) (by decide) (by decide) (by decide)
  exact ⟨h1, h2⟩

/-! Lemmas about the single error source of the scan and about finalize. -/

/-- Every text occurs in itself. -/
theorem occursIn_self (l : List Char) : occursIn l l = true := by
  cases l with
  | nil => rfl
  | cons c rest => simp [occursIn, isPrefixOf_self]

/-- A line whose shaping yields no key/value pair leaves the state alone. -/
theorem processLine_skip {raw : List Char} (st : PartialAuthn)
    (h : lineAssign raw = none) : processLine st raw = .ok st := by
  simp [processLine, h]

/-- A line whose shaping yields a key/value pair is the key dispatch. -/
theorem processLine_assign {raw k v : List Char} (st : PartialAuthn)
    (h : lineAssign raw = some (k, v)) : processLine st raw = applyKey st k v := by
  simp [processLine, h]

/-- The only failing match arm is the port arm, with the port error. -/
theorem setField_error {st : PartialAuthn} {k : FieldKey} {value : List Char}
    {e : ParseError} (h : setField st k value = .error e) : e = .invalidPort := by
  cases k <;> simp only [setField] at h
  case smtpPort =>
    rcases hp : parseU16 value with _ | n <;> rw [hp] at h
    · exact (Except.error.inj h).symm
    · exact absurd h (by simp)
  all_goals exact absurd h (by simp)

/-- Key dispatch fails only with the port error. -/
theorem applyKey_error {st : PartialAuthn} {key value : List Char}
    {e : ParseError} (h : applyKey st key value = .error e) : e = .invalidPort := by
  unfold applyKey at h
  rcases hk : keyOf key with _ | k <;> rw [hk] at h
  · exact absurd h (by simp)
  · exact setField_error h

/-- A line fails only with the port error. -/
theorem processLine_error {st : PartialAuthn} {raw : List Char} {e : ParseError}
    (h : processLine st raw = .error e) : e = .invalidPort := by
  unfold processLine at h
  rcases hl : lineAssign raw with _ | ⟨k, v⟩ <;> rw [hl] at h
  · exact absurd h (by simp)
  · exact applyKey_error h

/-- The whole scan fails only with the port error. -/
theorem scanList_error {ls : List (List Char)} :
    ∀ {st : PartialAuthn} {e : ParseError},
      scanList st ls = .error e → e = .invalidPort := by
  induction ls with
  | nil => intro st e h; exact absurd h (by simp [scanList])
  | cons l ls ih =>
    intro st e h
    simp only [scanList] at h
    rcases hp : processLine st l with e' | st' <;> simp only [hp] at h
    · obtain rfl := (Except.error.inj h).symm
      exact processLine_error hp
    · exact ih h

/-- When a field is still unset after the scan, finalize fails with the
missing-field error of the first unset field in declaration order. -/
theorem finalize_missing {st : PartialAuthn} {f : List Char}
    (h : firstMissing st = some f) :
    finalize st = .error (.missingField f) := by
  obtain ⟨f1, f2, f3, f4, f5, f6, f7, f8⟩ := st
  cases f1 <;> cases f2 <;> cases f3 <;> cases f4 <;>
    cases f5 <;> cases f6 <;> cases f7 <;> cases f8 <;>
    simp_all [firstMissing, finalize]

/-- Claim C4 counterexample: a settings input that never assigns
GOOGLE_OAUTH_CLIENT_ID but carries an unparsable EMAIL_SMTP_PORT value;
the parser fails with the port error, whose message does not name the
missing field GOOGLE_OAUTH_CLIENT_ID. -/
theorem c4_counterexample :
    parse_authn_file (str "EMAIL_SMTP_PORT=x") = .error .invalidPort ∧
    occursIn (str "GOOGLE_OAUTH_CLIENT_ID") (errMsg .invalidPort) = false := by
  exact ⟨by decide, by decide⟩

/-- Claim C4 as amended: for every settings input in which some required
field is never assigned, the run fails — non-zero exit, no output written.
When the scan completes, the error names the first missing required field in
declaration order (GOOGLE_OAUTH_CLIENT_ID whenever it is the first missing
one); when the scan itself fails, the failure is the EMAIL_SMTP_PORT
validation error and the same no-output guarantee holds. -/
theorem c4_amended (content t : List Char) (d w1 w2 : Bool) :
    (∀ st f, scanList initPartial (rustLines content) = .ok st →
      firstMissing st = some f →
      parse_authn_file content = .error (.missingField f) ∧
      occursIn f (errMsg (.missingField f)) = true ∧
      runMain (some t) (some content) d w1 w2 =
        ⟨none, none, .parseFailure (.missingField f)⟩) ∧
    (∀ e, scanList initPartial (rustLines content) = .error e →
      e = .invalidPort ∧
      runMain (some t) (some content) d w1 w2 =
        ⟨none, none, .parseFailure .invalidPort⟩) := by
  constructor
  · intro st f hscan hmiss
    have hp : parse_authn_file content = .error (.missingField f) := by
      simp [parse_authn_file, hscan, finalize_missing hmiss]
    refine ⟨hp, ?_, by simp [runMain, hp]⟩
    show occursIn f (str "Error: " ++ f ++ str " not found in authn file") = true
    apply occursIn_append_left
    apply occursIn_append_right
    exact occursIn_self f
  · intro e hscan
    have he := scanList_error hscan
    subst he
    have hp : parse_authn_file content = .error .invalidPort := by
      simp [parse_authn_file, hscan]
    exact ⟨rfl, by simp [runMain, hp]⟩

/-- Witness for C4 as amended at the empty settings input, whose first
missing field is GOOGLE_OAUTH_CLIENT_ID. -/
theorem c4_amended_witness :
    parse_authn_file (str "") =
      .error (.missingField (str "GOOGLE_OAUTH_CLIENT_ID")) ∧
    runMain (some (str "T")) (some (str "")) true true true =
      ⟨none, none, .parseFailure (.missingField (str "GOOGLE_OAUTH_CLIENT_ID"))⟩ := by
  obtain ⟨h1, -, h3⟩ := (c4_amended (str "") (str "T") true true true).1
    initPartial (str "GOOGLE_OAUTH_CLIENT_ID") (by decide) (by decide)
  exact ⟨h1, h3⟩

/-- A line that reaches the port match arm with a value that does not parse
as u16. -/
def isInvalidPortLine (raw : List Char) : Prop :=
  ∃ v, lineAssign raw = some (str "EMAIL_SMTP_PORT", v) ∧ parseU16 v = none

/-- The port arm is reached for the port key text. -/
theorem applyKey_port (st : PartialAuthn) (v : List Char) :
    applyKey st (str "EMAIL_SMTP_PORT") v = setField st .smtpPort v := by
  have hk : keyOf (str "EMAIL_SMTP_PORT") = some .smtpPort := by decide
  simp [applyKey, hk]

/-- A scan over lines containing an invalid port assignment fails with the
port error, whatever the state. -/
theorem scanList_invalidPort {ls : List (List Char)} :
    ∀ (st : PartialAuthn), (∃ raw ∈ ls, isInvalidPortLine raw) →
      scanList st ls = .error .invalidPort := by
  induction ls with
  | nil =>
    intro st h
    rcases h with ⟨raw, hmem, -⟩
    simp at hmem
  | cons l ls ih =>
    intro st h
    rcases h with ⟨raw, hmem, hinv⟩
    rcases List.mem_cons.mp hmem with rfl | hmem'
    · rcases hinv with ⟨v, hassign, hnone⟩
      simp only [scanList, processLine_assign st hassign, applyKey_port,
        setField, hnone]
    · rcases hp : processLine st l with e | st'
      · obtain rfl := processLine_error hp
        simp only [scanList, hp]
      · simp only [scanList, hp]
        exact ih st' ⟨raw, hmem', hinv⟩

/-- Claim C5: a settings input containing a port assignment whose value does
not parse as an unsigned 16-bit integer makes the parser fail with the port
error, whose message names EMAIL_SMTP_PORT — no default is substituted; and
a port assignment whose value does parse stores exactly that integer in the
scanning state. -/
theorem c5_port_validation (content : List Char) (st : PartialAuthn)
    (raw v : List Char) (n : Nat) :
    ((∃ bad ∈ rustLines content, isInvalidPortLine bad) →
      parse_authn_file content = .error .invalidPort ∧
      occursIn (str "EMAIL_SMTP_PORT") (errMsg .invalidPort) = true) ∧
    (lineAssign raw = some (str "EMAIL_SMTP_PORT", v) → parseU16 v = some n →
      processLine st raw = .ok { st with email_smtp_port := some n }) := by
  constructor
  · intro hex
    refine ⟨?_, by decide⟩
    simp [parse_authn_file, scanList_invalidPort initPartial hex]
  · intro ha hn
    rw [processLine_assign st ha, applyKey_port]
    simp [setField, hn]

/-- Witness for C5: an out-of-range port value fails the whole parse, and an
in-range value is stored exactly. -/
theorem c5_port_validation_witness :
    parse_authn_file (str "EMAIL_SMTP_PORT=99999") = .error .invalidPort ∧
    processLine initPartial (str "EMAIL_SMTP_PORT=587") =
      .ok { initPartial with email_smtp_port := some 587 } := by
  obtain ⟨h1, h2⟩ := c5_port_validation (str "EMAIL_SMTP_PORT=99999")
    initPartial (str "EMAIL_SMTP_PORT=587") (str "587") 587
  exact ⟨(h1 ⟨str "EMAIL_SMTP_PORT=99999", by decide,
    str "99999", by decide, by decide⟩).1, h2 (by decide) (by decide)⟩

/-! Machinery for the line-processing claim: per-field views of the state. -/

/-- The scanning state holds value v for field k (for the port, the parsed
integer of v). -/
def fieldHolds (st : PartialAuthn) (k : FieldKey) (v : List Char) : Prop :=
  match k with
  | .clientId => st.client_id = some v
  | .clientSecret => st.client_secret = some v
  | .smtpHost => st.email_smtp_host = some v
  | .smtpPort => ∃ n, parseU16 v = some n ∧ st.email_smtp_port = some n
  | .smtpUsername => st.email_smtp_username = some v
  | .smtpPassword => st.email_smtp_password = some v
  | .senderName => st.email_sender_name = some v
  | .senderAddress => st.email_sender_address = some v

/-- Two scanning states agree on field k. -/
def fieldAgree (k : FieldKey) (st st' : PartialAuthn) : Prop :=
  match k with
  | .clientId => st.client_id = st'.client_id
  | .clientSecret => st.client_secret = st'.client_secret
  | .smtpHost => st.email_smtp_host = st'.email_smtp_host
  | .smtpPort => st.email_smtp_port = st'.email_smtp_port
  | .smtpUsername => st.email_smtp_username = st'.email_smtp_username
  | .smtpPassword => st.email_smtp_password = st'.email_smtp_password
  | .senderName => st.email_sender_name = st'.email_sender_name
  | .senderAddress => st.email_sender_address = st'.email_sender_address

/-- The value of the last line of the list that assigns to field k, if any. -/
def lastAssign (k : FieldKey) : List (List Char) → Option (List Char)
  | [] => none
  | raw :: rest =>
    match lastAssign k rest with
    | some v => some v
    | none =>
      match lineAssign raw with
      | some (key, v) => if key = keyName k then some v else none
      | none => none

/-- Field agreement is reflexive. -/
theorem fieldAgree_refl (k : FieldKey) (st : PartialAuthn) :
    fieldAgree k st st := by
  cases k <;> rfl

/-- Field agreement is transitive. -/
theorem fieldAgree_trans {k : FieldKey} {s1 s2 s3 : PartialAuthn}
    (h1 : fieldAgree k s1 s2) (h2 : fieldAgree k s2 s3) :
    fieldAgree k s1 s3 := by
  cases k <;> exact h1.trans h2

/-- A held field value survives agreement on that field. -/
theorem fieldHolds_of_agree {k : FieldKey} {st st' : PartialAuthn}
    {v : List Char} (h : fieldHolds st k v) (ha : fieldAgree k st st') :
    fieldHolds st' k v := by
  cases k <;> simp_all [fieldHolds, fieldAgree]

/-- Dispatch recognizes exactly the name of each field. -/
theorem keyOf_keyName (k : FieldKey) : keyOf (keyName k) = some k := by
  cases k <;> decide

/-- A recognized key text is the name of the recognized field. -/
theorem keyOf_eq_some {key : List Char} {k : FieldKey}
    (h : keyOf key = some k) : key = keyName k := by
  unfold keyOf at h
  repeat' split at h
  all_goals simp_all [keyName]
  all_goals (cases h; rfl)

/-- A successful match arm stores exactly the given value for its field. -/
theorem setField_fieldHolds {st st' : PartialAuthn} {k : FieldKey}
    {v : List Char} (h : setField st k v = .ok st') : fieldHolds st' k v := by
  cases k <;> simp only [setField] at h
  case smtpPort =>
    rcases hp : parseU16 v with _ | n <;> simp only [hp] at h
    · exact absurd h (by simp)
    · obtain rfl := Except.ok.inj h
      exact ⟨n, hp, rfl⟩
  all_goals
    obtain rfl := Except.ok.inj h
  all_goals
    simp [fieldHolds]

/-- A successful match arm for one field leaves every other field alone. -/
theorem setField_agree {st st' : PartialAuthn} {v : List Char}
    {k' k : FieldKey} (hne : k' ≠ k) (h : setField st k' v = .ok st') :
    fieldAgree k st st' := by
  cases k' <;> simp only [setField] at h
  case smtpPort =>
    rcases hp : parseU16 v with _ | n <;> simp only [hp] at h
    · exact absurd h (by simp)
    · obtain rfl := Except.ok.inj h
      cases k <;> first | exact absurd rfl hne | rfl
  all_goals
    obtain rfl := Except.ok.inj h
  all_goals
    cases k <;> first | exact absurd rfl hne | rfl

/-- A line that does not assign to field k leaves field k alone. -/
theorem processLine_agree {st st' : PartialAuthn} {raw : List Char}
    {k : FieldKey} (h : processLine st raw = .ok st')
    (hna : ∀ v, lineAssign raw ≠ some (keyName k, v)) :
    fieldAgree k st st' := by
  unfold processLine at h
  rcases hl : lineAssign raw with _ | ⟨key, v⟩ <;> simp only [hl] at h
  · obtain rfl := Except.ok.inj h
    exact fieldAgree_refl k st
  · unfold applyKey at h
    rcases hk : keyOf key with _ | k' <;> simp only [hk] at h
    · obtain rfl := Except.ok.inj h
      exact fieldAgree_refl k st
    · refine setField_agree ?_ h
      intro hkk
      subst hkk
      exact hna v (by rw [hl, keyOf_eq_some hk])

/-- When no line assigns to field k, tails of the list do not either. -/
theorem lastAssign_cons_none {k : FieldKey} {raw : List Char}
    {rest : List (List Char)} (h : lastAssign k (raw :: rest) = none) :
    lastAssign k rest = none ∧ ∀ v, lineAssign raw ≠ some (keyName k, v) := by
  simp only [lastAssign] at h
  rcases hr : lastAssign k rest with _ | v <;> simp only [hr] at h
  · refine ⟨rfl, ?_⟩
    intro v hv
    rw [hv] at h
    simp at h
  · exact absurd h (by simp)

/-- A scan over lines none of which assigns to field k leaves field k of the
state unchanged. -/
theorem scanList_agree {k : FieldKey} {ls : List (List Char)} :
    ∀ {st st' : PartialAuthn}, lastAssign k ls = none →
      scanList st ls = .ok st' → fieldAgree k st st' := by
  induction ls with
  | nil =>
    intro st st' _ h
    simp only [scanList] at h
    obtain rfl := Except.ok.inj h
    exact fieldAgree_refl k st
  | cons raw rest ih =>
    intro st st' hnone hscan
    obtain ⟨hrest, hna⟩ := lastAssign_cons_none hnone
    simp only [scanList] at hscan
    rcases hp : processLine st raw with e | st1 <;> simp only [hp] at hscan
    · exact absurd hscan (by simp)
    · exact fieldAgree_trans (processLine_agree hp hna) (ih hrest hscan)

/-- Last occurrence wins: after a successful scan, each field holds the
value of the last line assigning to it. -/
theorem scanList_lastAssign {k : FieldKey} {ls : List (List Char)} :
    ∀ {st st' : PartialAuthn} {v : List Char}, lastAssign k ls = some v →
      scanList st ls = .ok st' → fieldHolds st' k v := by
  induction ls with
  | nil =>
    intro st st' v h _
    simp [lastAssign] at h
  | cons raw rest ih =>
    intro st st' v hlast hscan
    simp only [scanList] at hscan
    rcases hp : processLine st raw with e | st1 <;> simp only [hp] at hscan
    · exact absurd hscan (by simp)
    simp only [lastAssign] at hlast
    rcases hr : lastAssign k rest with _ | v' <;> simp only [hr] at hlast
    · rcases hl : lineAssign raw with _ | ⟨key, vv⟩ <;> simp only [hl] at hlast
      · exact absurd hlast (by simp)
      · by_cases hkk : key = keyName k
        · rw [if_pos hkk] at hlast
          obtain rfl := Option.some.inj hlast
          subst hkk
          rw [processLine_assign st hl] at hp
          unfold applyKey at hp
          simp only [keyOf_keyName] at hp
          exact fieldHolds_of_agree (setField_fieldHolds hp)
            (scanList_agree hr hscan)
        · rw [if_neg hkk] at hlast
          exact absurd hlast (by simp)
    · obtain rfl := Option.some.inj hlast
      exact ih hr hscan

/-- Splitting at the first separator: the pieces reassemble the line and the
key piece holds no separator, so values may contain the separator. -/
theorem splitOnce_eq_some {sep : Char} {l a b : List Char} :
    splitOnce sep l = some (a, b) →
      l = a ++ sep :: b ∧ a.contains sep = false := by
  induction l generalizing a b with
  | nil => intro h; simp [splitOnce] at h
  | cons c rest ih =>
    intro h
    simp only [splitOnce] at h
    by_cases hc : c = sep
    · rw [if_pos hc] at h
      obtain ⟨rfl, rfl⟩ := Prod.mk.inj (Option.some.inj h)
      subst hc
      simp [List.contains]
    · rw [if_neg hc] at h
      rcases hs : splitOnce sep rest with _ | ⟨a', b'⟩ <;> simp only [hs] at h
      · exact absurd h (by simp)
      · obtain ⟨rfl, rfl⟩ := Prod.mk.inj (Option.some.inj h)
        obtain ⟨hre, hco⟩ := ih hs
        subst hre
        constructor
        · simp
        · simp only [List.contains_cons, Bool.or_eq_false_iff]
          exact ⟨by simp [beq_eq_false_iff_ne]; exact fun hx => hc hx.symm, hco⟩

/-- Claim C6: the parser's line discipline — each line is trimmed; blank
lines and lines starting (after trimming) with '#' are skipped; remaining
lines are split at the first '=' with key and value trimmed on both sides,
so values may themselves contain '=' while the key piece holds none; lines
with no '=' are silently ignored; and when a recognized key repeats over a
scan, the last occurrence's value wins. -/
theorem c6_line_processing (st : PartialAuthn)
    (rawSkip rawNoSep rawKV l a b k4 v4 v5 : List Char)
    (ls : List (List Char)) (fk : FieldKey) (st' : PartialAuthn) :
    ((trim rawSkip = [] ∨ (trim rawSkip).head? = some '#') →
      processLine st rawSkip = .ok st) ∧
    (splitOnce '=' (trim rawNoSep) = none → processLine st rawNoSep = .ok st) ∧
    (splitOnce '=' l = some (a, b) →
      l = a ++ '=' :: b ∧ a.contains '=' = false) ∧
    (trim rawKV ≠ [] → (trim rawKV).head? ≠ some '#' →
      splitOnce '=' (trim rawKV) = some (k4, v4) →
      processLine st rawKV = applyKey st (trim k4) (trim v4)) ∧
    (lastAssign fk ls = some v5 → scanList initPartial ls = .ok st' →
      fieldHolds st' fk v5) := by
  refine ⟨?_, ?_, ?_, ?_, ?_⟩
  · intro hc
    apply processLine_skip
    rcases hc with hc | hc <;> simp [lineAssign, hc]
  · intro hs
    apply processLine_skip
    simp [lineAssign, hs]
  · exact splitOnce_eq_some
  · intro h1 h2 h3
    have hne : (trim rawKV).isEmpty = false := by
      rcases htr : trim rawKV with _ | ⟨c, cs⟩
      · exact absurd htr h1
      · rfl
    apply processLine_assign
    simp [lineAssign, hne, h2, h3]
  · intro hlast hscan
    exact scanList_lastAssign hlast hscan

/-- Witness for C6: a blank line and a comment line are skipped, a line with
no separator is ignored, a line splits at its first '=' only, key and value
are trimmed before dispatch, and of two assignments to the SMTP host the
second wins. -/
theorem c6_line_processing_witness :
    processLine initPartial (str "   ") = .ok initPartial ∧
    processLine initPartial (str "  # EMAIL_SMTP_HOST=zzz") = .ok initPartial ∧
    processLine initPartial (str "no separator here") = .ok initPartial ∧
    (str "K=V=W" = str "K" ++ '=' :: str "V=W" ∧
      (str "K").contains '=' = false) ∧
    processLine initPartial (str " EMAIL_SMTP_HOST = h ") =
      applyKey initPartial (str "EMAIL_SMTP_HOST") (str "h") ∧
    fieldHolds ⟨none, none, some (str "h2"), none, none, none, none, none⟩
      .smtpHost (str "h2") := by
  obtain ⟨hskip, hnosep, hsplit, hkv, hlast⟩ :=
    c6_line_processing initPartial (str "   ") (str "no separator here")
      (str " EMAIL_SMTP_HOST = h ") (str "K=V=W") (str "K") (str "V=W")
      (str "EMAIL_SMTP_HOST ") (str " h") (str "h2")
      [str "EMAIL_SMTP_HOST=h1", str "EMAIL_SMTP_HOST=h2"] .smtpHost
      ⟨none, none, some (str "h2"), none, none, none, none, none⟩
  have hcomment :=
    (c6_line_processing initPartial (str "  # EMAIL_SMTP_HOST=zzz")
      (str "x") (str "x") (str "x") (str "x") (str "x") (str "x") (str "x")
      (str "x") [] .clientId initPartial).1 (Or.inr (by decide))
  have hkv' := hkv (by decide) (by decide) (by decide)
  rw [show trim (str "EMAIL_SMTP_HOST ") = str "EMAIL_SMTP_HOST" from by decide,
      show trim (str " h") = str "h" from by decide] at hkv'
  exact ⟨hskip (Or.inl (by decide)), hcomment, hnosep (by decide),
    hsplit (by decide), hkv', hlast (by decide) (by decide)⟩
